import Mathlib

/-!
Verification of the NexusAI multi-agent orchestration core.

We give a shallow embedding of the orchestration engine (geminiService:
TraceService, evaluateResponse, compactHistory, planExecution fallback,
executeAgent tool loop, runMultiAgentSystem dispatcher) and of the memory
bank service (MemoryBankService: addNote, addArrayItem, updateContext).

External collaborators (the generative model, the chat session, the
record-fetch endpoint) are modelled as oracles supplied through an
environment record; the orchestrator additionally produces an ordered
event trace recording which collaborator phases were invoked, modelling
the observability channel. All definitions are executable.
-/

/-- AgentDomain enum from types.ts. -/
inductive AgentDomain where
  | HEALTH
  | EDUCATION
  | ENVIRONMENT
  | ORCHESTRATOR
deriving DecidableEq, Repr

/-- The string value of each AgentDomain enum member. -/
def domainName : AgentDomain → String
  | AgentDomain.HEALTH => "HEALTH"
  | AgentDomain.EDUCATION => "EDUCATION"
  | AgentDomain.ENVIRONMENT => "ENVIRONMENT"
  | AgentDomain.ORCHESTRATOR => "ORCHESTRATOR"

/-- ExecutionMode enum from types.ts. -/
inductive ExecutionMode where
  | PARALLEL
  | SEQUENTIAL
  | LOOP
  | DIRECT
  | PAUSED
  | PLANNING
deriving DecidableEq, Repr

/-- Sentiment enum from types.ts. -/
inductive Sentiment where
  | POSITIVE
  | NEUTRAL
  | NEGATIVE
  | EMPATHETIC
deriving DecidableEq, Repr

/-- AgentStep from types.ts. -/
structure AgentStep where
  agent : AgentDomain
  instruction : String
deriving DecidableEq, Repr

/-- AgentPlan from types.ts. -/
structure AgentPlan where
  mode : ExecutionMode
  steps : List AgentStep
  reasoning : String
deriving DecidableEq, Repr

/-- PausedState from types.ts. agentOutputs is a string-keyed record whose
keys are agent domains; we model it as an association list in insertion
order, mirroring object key order in the source. -/
structure PausedState where
  plan : AgentPlan
  stepIndex : Nat
  accumulatedContext : String
  agentOutputs : List (AgentDomain × String)
deriving DecidableEq, Repr

/-- UserContext from types.ts. lastInteraction is an epoch timestamp. -/
structure UserContext where
  name : String
  location : String
  healthConditions : List String
  learningGoals : List String
  ecoPreferences : List String
  notes : List String
  lastInteraction : Nat
deriving DecidableEq, Repr

/-- EvaluationResult from types.ts. -/
structure EvaluationResult where
  score : Int
  feedback : String
  latencyMs : Nat
  tokenCost : Nat
deriving DecidableEq, Repr

/-- AgentMetric from types.ts. -/
structure AgentMetric where
  name : String
  value : Int
  unit : String
  timestamp : Nat
deriving DecidableEq, Repr

/-! ### TraceService (geminiService lines 16-28)

The mutable metrics array is passed explicitly as a list. -/

/-- recordMetric pushes a timestamped metric onto the log. -/
def recordMetric (metrics : List AgentMetric) (name : String) (value : Int)
    (unit : String) (timestamp : Nat) : List AgentMetric :=
  metrics ++ [{ name := name, value := value, unit := unit, timestamp := timestamp }]

/-- getRecentMetrics models metrics.slice(-count). The source default for
count is 5. Note the JavaScript corner case: slice(-0) is slice(0), the
whole array, so count = 0 yields the entire log, not the last 0 entries. -/
def getRecentMetrics (metrics : List AgentMetric) (count : Nat) : List AgentMetric :=
  if count = 0 then metrics else metrics.drop (metrics.length - count)

/-- clear() resets the metrics log to the empty array. -/
def clearMetrics : List AgentMetric := []

/-! ### MemoryBankService (memoryService, src/unnamed/part_000)

The service instance state is its UserContext; localStorage persistence is
outside the modelled core. -/

/-- The DEFAULT_CONTEXT constant; its lastInteraction is the construction
time, irrelevant to the claims, taken as 0. -/
def defaultUserContext : UserContext :=
  { name := "User", location := "Unknown", healthConditions := [], learningGoals := []
  , ecoPreferences := [], notes := [], lastInteraction := 0 }

/-- The three list-valued keys accepted by addArrayItem. -/
inductive ListKey where
  | healthConditions
  | learningGoals
  | ecoPreferences
deriving DecidableEq, Repr

/-- Read the list stored under a ListKey. -/
def getList (ctx : UserContext) : ListKey → List String
  | ListKey.healthConditions => ctx.healthConditions
  | ListKey.learningGoals => ctx.learningGoals
  | ListKey.ecoPreferences => ctx.ecoPreferences

/-- Replace the list stored under a ListKey. -/
def setList (ctx : UserContext) : ListKey → List String → UserContext
  | ListKey.healthConditions, l => { ctx with healthConditions := l }
  | ListKey.learningGoals, l => { ctx with learningGoals := l }
  | ListKey.ecoPreferences, l => { ctx with ecoPreferences := l }

/-- addNote: push the note unless already present (includes check). -/
def addNote (ctx : UserContext) (note : String) : UserContext :=
  if note ∈ ctx.notes then ctx else { ctx with notes := ctx.notes ++ [note] }

/-- addArrayItem: push the item onto the keyed list unless already present. -/
def addArrayItem (ctx : UserContext) (key : ListKey) (item : String) : UserContext :=
  if item ∈ getList ctx key then ctx else setList ctx key (getList ctx key ++ [item])

/-- A Partial of UserContext, as accepted by updateContext. -/
structure UserContextPatch where
  name : Option String := none
  location : Option String := none
  healthConditions : Option (List String) := none
  learningGoals : Option (List String) := none
  ecoPreferences : Option (List String) := none
  notes : Option (List String) := none
  lastInteraction : Option Nat := none
deriving DecidableEq, Repr

/-- updateContext spreads the patch over the context and then always
overwrites lastInteraction with Date.now() (the now argument); a
lastInteraction field in the patch is therefore ignored. -/
def updateContext (ctx : UserContext) (u : UserContextPatch) (now : Nat) : UserContext :=
  { name := u.name.getD ctx.name
  , location := u.location.getD ctx.location
  , healthConditions := u.healthConditions.getD ctx.healthConditions
  , learningGoals := u.learningGoals.getD ctx.learningGoals
  , ecoPreferences := u.ecoPreferences.getD ctx.ecoPreferences
  , notes := u.notes.getD ctx.notes
  , lastInteraction := now }

/-- The updateMemory tool dispatch inside executeAgent
(geminiService lines 335-344): category selects the memory operation. -/
def handleUpdateMemory (category item : String) (now : Nat) (ctx : UserContext) : UserContext :=
  if category = "health" then addArrayItem ctx ListKey.healthConditions item
  else if category = "education" then addArrayItem ctx ListKey.learningGoals item
  else if category = "environment" then addArrayItem ctx ListKey.ecoPreferences item
  else if category = "profile" then updateContext ctx { name := some item } now
  else addNote ctx item

/-! ### Evaluator (evaluateResponse, geminiService lines 186-213) -/

/-- evaluateResponse: the scoring call and the JSON parse of its reply are
modelled by an oracle returning the parsed (score, feedback) pair, or none
for any failure. latency is the measured wall-clock time of the call. -/
def evaluateResponse (query result : String)
    (oracle : String → String → Option (Int × String)) (latency : Nat) : EvaluationResult :=
  match oracle query result with
  | none => { score := 8, feedback := "Evaluation service unavailable.", latencyMs := 0, tokenCost := 0 }
  | some sf => { score := sf.1, feedback := sf.2, latencyMs := latency, tokenCost := result.length / 4 }

/-! ### Agent Executor (executeAgent, geminiService lines 254-368)

The chat session is an oracle: session k is the model reply to the k-th
message sent (message 0 is the instruction, message k greater than 0 the
k-th function response). Memory-bank writes made by the updateMemory tool
are threaded explicitly. -/

/-- One function call carried by a model reply, with the argument fields
read by the three declared tools. -/
structure FnCall where
  name : String
  reason : String := ""
  category : String := ""
  item : String := ""
  patientId : String := ""
deriving DecidableEq, Repr

/-- One model reply: its text (empty models an absent text), its function
calls, and the built-in tool signals inspected on the first reply. -/
structure ModelResponse where
  text : String := ""
  functionCalls : List FnCall := []
  hasGrounding : Bool := false
  hasExecutableCode : Bool := false
deriving DecidableEq, Repr

/-- Result record of executeAgent (AgentExecutionResult interface). -/
structure AgentExecutionResult where
  text : String
  isPaused : Bool := false
  pauseReason : String := ""
  toolUsage : List String := []
deriving DecidableEq, Repr

/-- The first function call of a reply (functionCalls[0]). -/
def headCall (r : ModelResponse) : FnCall :=
  r.functionCalls.headD { name := "" }

/-- Name of the first function call of a reply. -/
def headCallName (r : ModelResponse) : String :=
  (headCall r).name

/-- response.text or the "Task Completed." default used on loop exit. -/
def finishText (t : String) : String :=
  if t = "" then "Task Completed." else t

/-- Built-in tool signals recorded from the first reply
(grounding metadata and executable-code parts, lines 297-307). -/
def builtinToolSignals (r : ModelResponse) : List String :=
  (if r.hasGrounding then ["googleSearch"] else []) ++
    (if r.hasExecutableCode then ["codeExecution"] else [])

/-- The while loop of executeAgent (lines 309-364). budget is 5 - turns;
the loop runs while the reply carries a function call and budget is
positive. Every call name is pushed onto toolUsage first; pauseWorkflow
returns immediately; fetchMedicalRecords and updateMemory are resolved and
the session continues with the next reply; any other name breaks the loop
without a function response. -/
def execLoop (session : Nat → ModelResponse) (nextIdx : Nat) (resp : ModelResponse)
    (toolUsage : List String) (budget : Nat) (mem : UserContext) (now : Nat) :
    AgentExecutionResult × UserContext :=
  match budget with
  | 0 => ({ text := finishText resp.text, toolUsage := toolUsage }, mem)
  | Nat.succ b =>
    match resp.functionCalls with
    | [] => ({ text := finishText resp.text, toolUsage := toolUsage }, mem)
    | call :: _ =>
      if call.name = "pauseWorkflow" then
        ({ text := "Workflow Paused: " ++ call.reason, isPaused := true
         , pauseReason := call.reason, toolUsage := toolUsage ++ [call.name] }, mem)
      else if call.name = "fetchMedicalRecords" then
        execLoop session (nextIdx + 1) (session nextIdx) (toolUsage ++ [call.name]) b mem now
      else if call.name = "updateMemory" then
        execLoop session (nextIdx + 1) (session nextIdx) (toolUsage ++ [call.name]) b
          (handleUpdateMemory call.category call.item now mem) now
      else
        ({ text := finishText resp.text, toolUsage := toolUsage ++ [call.name] }, mem)

/-- executeAgent: send the instruction (reply session 0), record built-in
tool signals from the first reply, then run the 5-turn tool loop. The
persona, instruction, context and language configure the chat session and
are absorbed into the session oracle. -/
def executeAgent (_agent : AgentDomain) (_instruction _context _language : String)
    (session : Nat → ModelResponse) (mem : UserContext) (now : Nat) :
    AgentExecutionResult × UserContext :=
  execLoop session 1 (session 0) (builtinToolSignals (session 0)) 5 mem now

/-- Memory state after resolving the first call of a reply, as execLoop
does: only updateMemory changes it. -/
def memAfterCall (r : ModelResponse) (mem : UserContext) (now : Nat) : UserContext :=
  if headCallName r = "updateMemory" then
    handleUpdateMemory (headCall r).category (headCall r).item now mem
  else mem

/-! ### Mode Dispatcher (runMultiAgentSystem, geminiService lines 372-545)

External calls are oracles in an environment record. Executor invocations
are abstracted as a function of (agent, instruction, context): the
dispatcher only observes the AgentExecutionResult interface, and its
control flow does not depend on the executor's memory-bank side effects
(those are verified on executeAgent above). A trace of RunEvent values
models the observability channel: one event per collaborator phase. -/

/-- One prior conversation turn: role and parts[0].text. -/
structure HistTurn where
  role : String
  text : String
deriving DecidableEq, Repr

/-- The transcript formatted as "ROLE: text" lines joined by newlines. -/
def formatHistory (history : List HistTurn) : String :=
  String.intercalate "\n" (history.map fun h => h.role.toUpper ++ ": " ++ h.text)

/-- The summarization request sent by compactHistory (lines 167-182). -/
def summarizationPrompt (transcript : String) : String :=
  "Summarize this conversation concisely, retaining key facts, user goals, and latest state:\n\n" ++ transcript

/-- The parsed structured synthesis reply (the response and sentiment
fields consumed by the modelled core; the remaining schema fields do not
influence control flow). -/
structure ParsedSynthesis where
  response : String
  sentiment : Sentiment
deriving DecidableEq, Repr

/-- Everything handed to the synthesis call: the user query, the joined
agent outputs, the compacted context, the formatted memory snapshot, the
target language and the aggregated tool-usage log (lines 501-528). -/
structure SynthInput where
  prompt : String
  synthesisContext : String
  contextSummary : String
  memoryContext : String
  language : String
  toolUsageLog : List String
deriving DecidableEq, Repr

/-- Trace events, one per external phase invocation. -/
inductive RunEvent where
  | compactEv (transcript : String)
  | planEv (planningContext : String)
  | execEv (agent : AgentDomain) (instruction : String) (context : String)
  | synthEv (input : SynthInput)
  | evalEv (query : String) (response : String)
deriving DecidableEq, Repr

def isExecEvent : RunEvent → Bool
  | RunEvent.execEv _ _ _ => true
  | _ => false

def isSynthEvent : RunEvent → Bool
  | RunEvent.synthEv _ => true
  | _ => false

def isCompactEvent : RunEvent → Bool
  | RunEvent.compactEv _ => true
  | _ => false

/-- Synthesizer or Evaluator invocation. -/
def isSynthOrEvalEvent : RunEvent → Bool
  | RunEvent.synthEv _ => true
  | RunEvent.evalEv _ _ => true
  | _ => false

/-- Executor abstraction: (agent, instruction, context) to result. -/
abbrev ExecFn := AgentDomain → String → String → AgentExecutionResult

/-- The oracle environment: summarize models the compaction call text,
planner the planExecution call (error for a thrown planning call),
exec the executeAgent invocations, synthesize the final structured call
(error for a thrown call or unparsable reply), scoreOracle and
evalLatency the Evaluator collaborator. -/
structure Env where
  summarize : String → String
  planner : String → Except Unit AgentPlan
  exec : ExecFn
  synthesize : SynthInput → Except Unit ParsedSynthesis
  scoreOracle : String → String → Option (Int × String)
  evalLatency : Nat

/-- Run-fatal error outcomes of the dispatcher. -/
inductive RunError where
  | missingApiKey
  | stepsEmptyFault
  | synthesisFailed
deriving DecidableEq, Repr

/-- The object runMultiAgentSystem returns to the caller (the fields of
the modelled core; chart data and the other spread synthesis fields ride
along with response and sentiment in the source). -/
structure RunResult where
  response : String
  sentiment : Sentiment
  executionMode : ExecutionMode
  activeAgents : List AgentDomain
  pausedState : Option PausedState
  reasoning : Option String
  evaluation : Option EvaluationResult
deriving DecidableEq, Repr

/-- The fallback plan built when the planning call throws (line 430). -/
def fallbackPlan (prompt : String) : AgentPlan :=
  { mode := ExecutionMode.DIRECT
  , steps := [{ agent := AgentDomain.ORCHESTRATOR, instruction := prompt }]
  , reasoning := "Fallback." }

/-- History compaction (lines 390-403): skipped on resume and on empty
history; above 6 turns one summarization call over the verbatim
transcript, otherwise the verbatim transcript itself. Returns the context
summary and the events emitted. -/
def compactionPhase (env : Env) (history : List HistTurn) (resumeState : Option PausedState) :
    String × List RunEvent :=
  match resumeState with
  | some _ => ("", [])
  | none =>
    if 0 < history.length then
      if 6 < history.length then
        (env.summarize (summarizationPrompt (formatHistory history)),
          [RunEvent.compactEv (formatHistory history)])
      else
        (formatHistory history, [])
    else ("", [])

/-- The planning context assembled at lines 417-425 (template literal
whitespace preserved). -/
def planningContextFor (contextSummary prompt memoryContext : String) : String :=
  "\n      Previous Conversation Summary/History:\n      " ++ contextSummary ++
    "\n      \n      Current Request: " ++ prompt ++
    "\n      \n      User Profile:\n      " ++ memoryContext ++ "\n    "

/-- Plan state restored or created in Phase 1 (lines 405-434). -/
structure RunSetup where
  plan : AgentPlan
  accumulatedContext : String
  agentOutputs : List (AgentDomain × String)
  startStepIndex : Nat
deriving DecidableEq, Repr

/-- Phase 1: restore the checkpoint unchanged on resume; otherwise call
the planner (falling back to the DIRECT fallback plan on error) and build
the fresh accumulated context. -/
def setupPhase (env : Env) (prompt sessionId memoryContext contextSummary : String)
    (resumeState : Option PausedState) : RunSetup × List RunEvent :=
  match resumeState with
  | some rs =>
    ({ plan := rs.plan, accumulatedContext := rs.accumulatedContext
     , agentOutputs := rs.agentOutputs, startStepIndex := rs.stepIndex }, [])
  | none =>
    ({ plan :=
         match env.planner (planningContextFor contextSummary prompt memoryContext) with
         | Except.ok p => p
         | Except.error _ => fallbackPlan prompt
     , accumulatedContext :=
         "User Query: " ++ prompt ++ "\nSession ID: " ++ sessionId ++
           "\nHistory Context: " ++ contextSummary ++ "\n" ++ memoryContext
     , agentOutputs := [], startStepIndex := 0 },
     [RunEvent.planEv (planningContextFor contextSummary prompt memoryContext)])

/-- Insert or overwrite a key in a string-keyed record, preserving the
insertion position of an existing key (JavaScript object semantics). -/
def upsert (m : List (AgentDomain × String)) (k : AgentDomain) (v : String) :
    List (AgentDomain × String) :=
  match m with
  | [] => [(k, v)]
  | kv :: rest => if kv.1 = k then (k, v) :: rest else kv :: upsert rest k v

/-- Running state of the sequential loop. -/
structure SeqState where
  accumulatedContext : String
  agentOutputs : List (AgentDomain × String)
  toolUsageLog : List String
  events : List RunEvent
deriving DecidableEq, Repr

/-- State change of one completed (non-paused) sequential step
(lines 457-480): merge tool usage, record the output, append the output
annotation to the running context. -/
def advanceSeq (exec : ExecFn) (st : SeqState) (step : AgentStep) : SeqState :=
  { accumulatedContext :=
      st.accumulatedContext ++ "\n[Output from " ++ domainName step.agent ++ "]: " ++
        (exec step.agent step.instruction st.accumulatedContext).text
  , agentOutputs := upsert st.agentOutputs step.agent
      (exec step.agent step.instruction st.accumulatedContext).text
  , toolUsageLog := st.toolUsageLog ++ (exec step.agent step.instruction st.accumulatedContext).toolUsage
  , events := st.events ++ [RunEvent.execEv step.agent step.instruction st.accumulatedContext] }

/-- Outcome of the sequential loop: an early paused return carrying the
checkpoint, the pause reason, the pausing agent and the loop state, or
normal completion. -/
inductive SeqOutcome where
  | paused (ps : PausedState) (reason : String) (agent : AgentDomain) (st : SeqState)
  | completed (st : SeqState)
deriving DecidableEq, Repr

/-- Events carried by a sequential outcome. -/
def seqOutcomeEvents : SeqOutcome → List RunEvent
  | SeqOutcome.paused _ _ _ st => st.events
  | SeqOutcome.completed st => st.events

/-- The SEQUENTIAL loop (lines 450-482): i is the absolute step index of
the head of steps. On pause the checkpoint stores the plan unchanged,
stepIndex i + 1, and the running context with the paused step's partial
text appended; the tool usage of the pausing call was already merged. -/
def runSeqSteps (exec : ExecFn) (plan : AgentPlan) : Nat → List AgentStep → SeqState → SeqOutcome
  | _, [], st => SeqOutcome.completed st
  | i, step :: rest, st =>
    if (exec step.agent step.instruction st.accumulatedContext).isPaused then
      SeqOutcome.paused
        { plan := plan
        , stepIndex := i + 1
        , accumulatedContext :=
            st.accumulatedContext ++ "\n[Paused Step " ++ domainName step.agent ++ "]: " ++
              (exec step.agent step.instruction st.accumulatedContext).text
        , agentOutputs := st.agentOutputs }
        (exec step.agent step.instruction st.accumulatedContext).pauseReason
        step.agent
        { accumulatedContext := st.accumulatedContext
        , agentOutputs := st.agentOutputs
        , toolUsageLog := st.toolUsageLog ++ (exec step.agent step.instruction st.accumulatedContext).toolUsage
        , events := st.events ++ [RunEvent.execEv step.agent step.instruction st.accumulatedContext] }
    else
      runSeqSteps exec plan (i + 1) rest (advanceSeq exec st step)

/-- Result of Phase 2: a paused early return, completion with the
accumulated outputs and tool-usage log, or the TypeError raised by
reading steps[0] of an empty plan in the LOOP and DIRECT branches. -/
inductive ExecPhaseResult where
  | paused (result : RunResult) (events : List RunEvent)
  | completed (agentOutputs : List (AgentDomain × String)) (toolUsageLog : List String)
      (events : List RunEvent)
  | faulted (events : List RunEvent)
deriving DecidableEq, Repr

/-- Events carried by a Phase 2 result. -/
def execPhaseEvents : ExecPhaseResult → List RunEvent
  | ExecPhaseResult.paused _ events => events
  | ExecPhaseResult.completed _ _ events => events
  | ExecPhaseResult.faulted events => events

/-- Phase 2 (lines 436-496): PARALLEL fan-out on a fresh plan; SEQUENTIAL
pipeline (fresh or resumed); LOOP three-call refinement on a fresh plan
(its per-call tool usage is discarded); DIRECT single call on any other
fresh plan; a resumed non-sequential plan runs nothing. -/
def executionPhase (env : Env) (setup : RunSetup) (resumeState : Option PausedState)
    (ev0 : List RunEvent) : ExecPhaseResult :=
  if setup.plan.mode = ExecutionMode.PARALLEL ∧ resumeState.isNone then
    ExecPhaseResult.completed
      ((setup.plan.steps.map fun step =>
          (step, env.exec step.agent step.instruction setup.accumulatedContext)).foldl
        (fun m pr => upsert m pr.1.agent pr.2.text) setup.agentOutputs)
      ((setup.plan.steps.map fun step =>
          (step, env.exec step.agent step.instruction setup.accumulatedContext)).foldl
        (fun l pr => l ++ pr.2.toolUsage) [])
      (ev0 ++ setup.plan.steps.map fun step =>
        RunEvent.execEv step.agent step.instruction setup.accumulatedContext)
  else if setup.plan.mode = ExecutionMode.SEQUENTIAL then
    match runSeqSteps env.exec setup.plan setup.startStepIndex
        (setup.plan.steps.drop setup.startStepIndex)
        { accumulatedContext := setup.accumulatedContext
        , agentOutputs := setup.agentOutputs
        , toolUsageLog := []
        , events := ev0 } with
    | SeqOutcome.paused ps reason agent st =>
      ExecPhaseResult.paused
        { response := "Workflow Paused: " ++ reason
        , sentiment := Sentiment.NEUTRAL
        , executionMode := ExecutionMode.PAUSED
        , activeAgents := [agent]
        , pausedState := some ps
        , reasoning := some reason
        , evaluation := none }
        st.events
    | SeqOutcome.completed st =>
      ExecPhaseResult.completed st.agentOutputs st.toolUsageLog st.events
  else if setup.plan.mode = ExecutionMode.LOOP ∧ resumeState.isNone then
    match setup.plan.steps with
    | [] => ExecPhaseResult.faulted ev0
    | s0 :: _ =>
      ExecPhaseResult.completed
        (upsert setup.agentOutputs s0.agent
          (env.exec s0.agent
            ("Refine based on: " ++
              (env.exec AgentDomain.ORCHESTRATOR
                ("Critique: " ++ (env.exec s0.agent s0.instruction setup.accumulatedContext).text)
                "").text)
            ("Draft: " ++ (env.exec s0.agent s0.instruction setup.accumulatedContext).text)).text)
        []
        (ev0 ++
          [RunEvent.execEv s0.agent s0.instruction setup.accumulatedContext,
           RunEvent.execEv AgentDomain.ORCHESTRATOR
             ("Critique: " ++ (env.exec s0.agent s0.instruction setup.accumulatedContext).text) "",
           RunEvent.execEv s0.agent
             ("Refine based on: " ++
               (env.exec AgentDomain.ORCHESTRATOR
                 ("Critique: " ++ (env.exec s0.agent s0.instruction setup.accumulatedContext).text)
                 "").text)
             ("Draft: " ++ (env.exec s0.agent s0.instruction setup.accumulatedContext).text)])
  else if resumeState.isNone then
    match setup.plan.steps with
    | [] => ExecPhaseResult.faulted ev0
    | s0 :: _ =>
      ExecPhaseResult.completed
        (upsert setup.agentOutputs s0.agent
          (env.exec s0.agent s0.instruction setup.accumulatedContext).text)
        (env.exec s0.agent s0.instruction setup.accumulatedContext).toolUsage
        (ev0 ++ [RunEvent.execEv s0.agent s0.instruction setup.accumulatedContext])
  else
    ExecPhaseResult.completed setup.agentOutputs [] ev0

/-- Agent outputs joined for synthesis (line 501). -/
def synthesisContextOf (outs : List (AgentDomain × String)) : String :=
  String.intercalate "\n\n" (outs.map fun p => domainName p.1 ++ " Output: " ++ p.2)

/-- Phases 3 and 4 (lines 498-544): a paused Phase 2 returns immediately;
otherwise one synthesis call (fatal on error) then the Evaluator, and the
completed result is assembled from the plan. -/
def finishRun (env : Env) (prompt contextSummary memoryContext language : String)
    (er : ExecPhaseResult) (setup : RunSetup) : Except RunError RunResult × List RunEvent :=
  match er with
  | ExecPhaseResult.paused result events => (Except.ok result, events)
  | ExecPhaseResult.faulted events => (Except.error RunError.stepsEmptyFault, events)
  | ExecPhaseResult.completed outs tul events =>
    match env.synthesize
        { prompt := prompt, synthesisContext := synthesisContextOf outs
        , contextSummary := contextSummary, memoryContext := memoryContext
        , language := language, toolUsageLog := tul } with
    | Except.error _ =>
      (Except.error RunError.synthesisFailed,
        events ++ [RunEvent.synthEv
          { prompt := prompt, synthesisContext := synthesisContextOf outs
          , contextSummary := contextSummary, memoryContext := memoryContext
          , language := language, toolUsageLog := tul }])
    | Except.ok parsed =>
      (Except.ok
        { response := parsed.response
        , sentiment := parsed.sentiment
        , executionMode := setup.plan.mode
        , activeAgents := setup.plan.steps.map AgentStep.agent
        , pausedState := none
        , reasoning := none
        , evaluation := some (evaluateResponse prompt parsed.response env.scoreOracle env.evalLatency) },
        events ++ [RunEvent.synthEv
          { prompt := prompt, synthesisContext := synthesisContextOf outs
          , contextSummary := contextSummary, memoryContext := memoryContext
          , language := language, toolUsageLog := tul },
          RunEvent.evalEv prompt parsed.response])

/-- runMultiAgentSystem: the complete dispatcher. memoryContext stands for
the formatted memory snapshot read at run start, sessionId for the session
service identifier. Returns the caller-visible outcome and the event
trace. -/
def runWorkflow (env : Env) (prompt : String) (history : List HistTurn)
    (apiKey sessionId memoryContext language : String)
    (resumeState : Option PausedState) : Except RunError RunResult × List RunEvent :=
  if apiKey = "" then (Except.error RunError.missingApiKey, [])
  else
    finishRun env prompt (compactionPhase env history resumeState).1 memoryContext language
      (executionPhase env
        (setupPhase env prompt sessionId memoryContext
          (compactionPhase env history resumeState).1 resumeState).1
        resumeState
        ((compactionPhase env history resumeState).2 ++
          (setupPhase env prompt sessionId memoryContext
            (compactionPhase env history resumeState).1 resumeState).2))
      (setupPhase env prompt sessionId memoryContext
        (compactionPhase env history resumeState).1 resumeState).1

/-- The plan state the run operates on (Phase 1 output). -/
def theSetup (env : Env) (prompt : String) (history : List HistTurn)
    (sessionId memoryContext : String) (resumeState : Option PausedState) : RunSetup :=
  (setupPhase env prompt sessionId memoryContext
    (compactionPhase env history resumeState).1 resumeState).1

/-- The events emitted before Phase 2 (compaction and planning). -/
def preRunEvents (env : Env) (prompt : String) (history : List HistTurn)
    (sessionId memoryContext : String) (resumeState : Option PausedState) : List RunEvent :=
  (compactionPhase env history resumeState).2 ++
    (setupPhase env prompt sessionId memoryContext
      (compactionPhase env history resumeState).1 resumeState).2

/-- The state the sequential loop starts from. -/
def seqStartState (env : Env) (prompt : String) (history : List HistTurn)
    (sessionId memoryContext : String) (resumeState : Option PausedState) : SeqState :=
  { accumulatedContext := (theSetup env prompt history sessionId memoryContext resumeState).accumulatedContext
  , agentOutputs := (theSetup env prompt history sessionId memoryContext resumeState).agentOutputs
  , toolUsageLog := []
  , events := preRunEvents env prompt history sessionId memoryContext resumeState }

/-- Loop state after executing a run of non-pausing steps from st. -/
def stateAfter (exec : ExecFn) (st : SeqState) : List AgentStep → SeqState
  | [] => st
  | step :: rest => stateAfter exec (advanceSeq exec st step) rest

/-- The steps of a list all complete without a pause signal when executed
in order from st. -/
def noPauseAlong (exec : ExecFn) (st : SeqState) : List AgentStep → Prop
  | [] => True
  | step :: rest =>
    (exec step.agent step.instruction st.accumulatedContext).isPaused = false ∧
      noPauseAlong exec (advanceSeq exec st step) rest

/-! ### Concrete instances used by witnesses and counterexamples -/

/-- A memory-bank state holding a pre-existing duplicate note (such a
state is representable, e.g. restored from persisted storage). -/
def dupNotesCtx : UserContext :=
  { defaultUserContext with notes := ["sleep early", "sleep early"] }

/-- A sample metric. -/
def metricEx : AgentMetric :=
  { name := "PlanningLatency", value := 3, unit := "ms", timestamp := 0 }

/-- A session whose every reply carries an updateMemory call. -/
def sessW : Nat → ModelResponse := fun _ =>
  { text := "ok"
  , functionCalls := [{ name := "updateMemory", category := "note", item := "likes tea" }] }

/-- A fixed executor reply. -/
def execResultW : AgentExecutionResult := { text := "T", toolUsage := ["googleSearch"] }

/-- Baseline oracle environment: failing planner, fixed executor,
succeeding synthesizer, failing score oracle. -/
def envBaseW : Env :=
  { summarize := fun _ => "SUMMARY"
  , planner := fun _ => Except.error ()
  , exec := fun _ _ _ => execResultW
  , synthesize := fun _ => Except.ok { response := "R", sentiment := Sentiment.NEUTRAL }
  , scoreOracle := fun _ _ => none
  , evalLatency := 0 }

/-- A one-step SEQUENTIAL plan. -/
def planSeqW : AgentPlan :=
  { mode := ExecutionMode.SEQUENTIAL
  , steps := [{ agent := AgentDomain.HEALTH, instruction := "do" }]
  , reasoning := "r" }

/-- Environment whose planner returns planSeqW and whose executor always
signals pause. -/
def envPauseW : Env :=
  { envBaseW with
    planner := fun _ => Except.ok planSeqW
  , exec := fun _ _ _ =>
      { text := "PT", isPaused := true, pauseReason := "wait", toolUsage := ["pauseWorkflow"] } }

/-- A one-step LOOP plan. -/
def planLoopW : AgentPlan :=
  { mode := ExecutionMode.LOOP
  , steps := [{ agent := AgentDomain.EDUCATION, instruction := "draft" }]
  , reasoning := "r" }

/-- Environment whose planner returns planLoopW. -/
def envLoopW : Env := { envBaseW with planner := fun _ => Except.ok planLoopW }

/-- A checkpoint of a PARALLEL plan with a persisted output. -/
def psParW : PausedState :=
  { plan := { mode := ExecutionMode.PARALLEL
            , steps := [{ agent := AgentDomain.HEALTH, instruction := "a" }]
            , reasoning := "r" }
  , stepIndex := 1
  , accumulatedContext := "ctx"
  , agentOutputs := [(AgentDomain.HEALTH, "out")] }

/-- A sample conversation turn. -/
def histTurnW : HistTurn := { role := "user", text := "hi" }

/-- A 7-turn prior history (above the compaction threshold). -/
def hist7W : List HistTurn := List.replicate 7 histTurnW

/-- A 6-turn prior history (at the compaction threshold). -/
def hist6W : List HistTurn := List.replicate 6 histTurnW

/-- The paused outcome of running envPauseW (used by the C1 witness). -/
def pausedResultW : RunResult :=
  { response := "Workflow Paused: wait"
  , sentiment := Sentiment.NEUTRAL
  , executionMode := ExecutionMode.PAUSED
  , activeAgents := [AgentDomain.HEALTH]
  , pausedState := some
      { plan := planSeqW
      , stepIndex := 1
      , accumulatedContext := "User Query: p\nSession ID: s\nHistory Context: \nm\n[Paused Step HEALTH]: PT"
      , agentOutputs := [] }
  , reasoning := some "wait"
  , evaluation := none }

/-! ### Claims about the Evaluator, memory bank and trace recorder -/

/-- Claim C5: for every query and response text, a failing scoring call
yields exactly the safe default record and never propagates; a successful
call yields the parsed score and feedback with tokenCost the floor of the
response length divided by 4. -/
theorem claim_C5_evaluator_policy (query result : String) (latency : Nat) (s : Int) (f : String)
    (failOracle okOracle : String → String → Option (Int × String))
    (hfail : failOracle query result = none)
    (hok : okOracle query result = some (s, f)) :
    evaluateResponse query result failOracle latency =
      { score := 8, feedback := "Evaluation service unavailable.", latencyMs := 0, tokenCost := 0 } ∧
    evaluateResponse query result okOracle latency =
      { score := s, feedback := f, latencyMs := latency, tokenCost := result.length / 4 } := by
  constructor
  · simp [evaluateResponse, hfail]
  · simp [evaluateResponse, hok]

/-- Witness for C5 at concrete oracles (note "resp".length / 4 = 1). -/
theorem claim_C5_witness :
    evaluateResponse "q" "resp" (fun _ _ => none) 7 =
      { score := 8, feedback := "Evaluation service unavailable.", latencyMs := 0, tokenCost := 0 } ∧
    evaluateResponse "q" "resp" (fun _ _ => some (9, "good")) 7 =
      { score := 9, feedback := "good", latencyMs := 7, tokenCost := 1 } := by
  have h := claim_C5_evaluator_policy "q" "resp" 7 9 "good"
    (fun _ _ => none) (fun _ _ => some (9, "good")) rfl rfl
  simpa using h

/-- Claim C7 counterexample: the profile branch also overwrites
lastInteraction with the current time, so a field other than the name
changes, contradicting the claim that all other fields are unchanged. -/
theorem claim_C7_counterexample :
    handleUpdateMemory "profile" "Alice" 1 defaultUserContext =
      { defaultUserContext with name := "Alice", lastInteraction := 1 } ∧
    (handleUpdateMemory "profile" "Alice" 1 defaultUserContext).lastInteraction ≠
      defaultUserContext.lastInteraction := by
  decide

/-- Claim C7 (amended): health, education and environment append the item
to the matching list with deduplication; profile replaces the name and
also refreshes lastInteraction to the current time; any other category
appends to notes with deduplication; apart from that, fields are
unchanged. -/
theorem claim_C7_update_memory_dispatch (category item : String) (now : Nat) (ctx : UserContext) :
    (category = "health" →
      handleUpdateMemory category item now ctx =
        { ctx with healthConditions :=
            if item ∈ ctx.healthConditions then ctx.healthConditions
            else ctx.healthConditions ++ [item] }) ∧
    (category = "education" →
      handleUpdateMemory category item now ctx =
        { ctx with learningGoals :=
            if item ∈ ctx.learningGoals then ctx.learningGoals
            else ctx.learningGoals ++ [item] }) ∧
    (category = "environment" →
      handleUpdateMemory category item now ctx =
        { ctx with ecoPreferences :=
            if item ∈ ctx.ecoPreferences then ctx.ecoPreferences
            else ctx.ecoPreferences ++ [item] }) ∧
    (category = "profile" →
      handleUpdateMemory category item now ctx = { ctx with name := item, lastInteraction := now }) ∧
    (category ≠ "health" → category ≠ "education" → category ≠ "environment" →
      category ≠ "profile" →
      handleUpdateMemory category item now ctx =
        { ctx with notes := if item ∈ ctx.notes then ctx.notes else ctx.notes ++ [item] }) := by
  refine ⟨?_, ?_, ?_, ?_, ?_⟩
  · intro h; subst h
    by_cases hm : item ∈ ctx.healthConditions
    · simp [handleUpdateMemory, addArrayItem, getList, hm]
    · simp [handleUpdateMemory, addArrayItem, getList, setList, hm]
  · intro h; subst h
    by_cases hm : item ∈ ctx.learningGoals
    · simp [handleUpdateMemory, addArrayItem, getList, hm]
    · simp [handleUpdateMemory, addArrayItem, getList, setList, hm]
  · intro h; subst h
    by_cases hm : item ∈ ctx.ecoPreferences
    · simp [handleUpdateMemory, addArrayItem, getList, hm]
    · simp [handleUpdateMemory, addArrayItem, getList, setList, hm]
  · intro h; subst h
    simp [handleUpdateMemory, updateContext]
  · intro h1 h2 h3 h4
    by_cases hm : item ∈ ctx.notes
    · simp [handleUpdateMemory, h1, h2, h3, h4, addNote, hm]
    · simp [handleUpdateMemory, h1, h2, h3, h4, addNote, hm]

/-- Witness for C7 (amended) at the health category. -/
theorem claim_C7_witness :
    handleUpdateMemory "health" "asthma" 5 defaultUserContext =
      { defaultUserContext with healthConditions := ["asthma"] } := by
  have h := (claim_C7_update_memory_dispatch "health" "asthma" 5 defaultUserContext).1 rfl
  simpa [defaultUserContext] using h

/-- Auxiliary: reading back the list just written under a key. -/
theorem getList_setList (ctx : UserContext) (k : ListKey) (l : List String) :
    getList (setList ctx k l) k = l := by
  cases k <;> rfl

/-- Claim C8 counterexample: on a state already holding a duplicate note,
calling addNote twice equals calling it once, yet the stored entry count
for that text is 2, not 1 — so the claim fails for that state. -/
theorem claim_C8_counterexample :
    addNote (addNote dupNotesCtx "sleep early") "sleep early" = addNote dupNotesCtx "sleep early" ∧
    (addNote dupNotesCtx "sleep early").notes.count "sleep early" = 2 := by
  decide

/-- Claim C8 (amended): addNote and addArrayItem are idempotent on every
state (twice equals once), and whenever the text occurs at most once
beforehand — as in every state built by the service operations from the
default — exactly one stored entry for it remains afterwards. -/
theorem claim_C8_idempotent (ctx : UserContext) (t : String) (k : ListKey) :
    addNote (addNote ctx t) t = addNote ctx t ∧
    addArrayItem (addArrayItem ctx k t) k t = addArrayItem ctx k t ∧
    (ctx.notes.count t ≤ 1 → (addNote ctx t).notes.count t = 1) ∧
    ((getList ctx k).count t ≤ 1 → (getList (addArrayItem ctx k t) k).count t = 1) := by
  refine ⟨?_, ?_, ?_, ?_⟩
  · by_cases hm : t ∈ ctx.notes
    · simp [addNote, hm]
    · simp [addNote, hm]
  · by_cases hm : t ∈ getList ctx k
    · simp [addArrayItem, hm]
    · simp [addArrayItem, hm, getList_setList]
  · intro hc
    by_cases hm : t ∈ ctx.notes
    · have hpos : 0 < ctx.notes.count t := List.count_pos_iff.mpr hm
      simp only [addNote, if_pos hm]
      omega
    · have hz : ctx.notes.count t = 0 := List.count_eq_zero.mpr hm
      simp [addNote, hm, List.count_append, hz]
  · intro hc
    by_cases hm : t ∈ getList ctx k
    · have hpos : 0 < (getList ctx k).count t := List.count_pos_iff.mpr hm
      simp only [addArrayItem, if_pos hm]
      omega
    · have hz : (getList ctx k).count t = 0 := List.count_eq_zero.mpr hm
      simp [addArrayItem, hm, getList_setList, List.count_append, hz]

/-- Witness for C8 (amended) on the default state. -/
theorem claim_C8_witness :
    addNote (addNote defaultUserContext "a") "a" = addNote defaultUserContext "a" ∧
    (addNote defaultUserContext "a").notes.count "a" = 1 := by
  have h := claim_C8_idempotent defaultUserContext "a" ListKey.healthConditions
  exact ⟨h.1, h.2.2.1 (by decide)⟩

/-- Claim C9 counterexample: getRecentMetrics with count 0 models
slice(-0), i.e. slice(0), returning the whole log rather than the last 0
entries — so the claim fails at n = 0 on a non-empty log. -/
theorem claim_C9_counterexample :
    getRecentMetrics [metricEx] 0 = [metricEx] ∧
    (([metricEx].reverse.take 0).reverse : List AgentMetric) = [] := by
  decide

/-- Claim C9 (amended): for every n at least 1, getRecentMetrics returns
the last n recorded metrics in insertion order (the source default count
is 5), and after clear() every getRecentMetrics call returns the empty
list. At n = 0 the code instead returns the entire log. -/
theorem claim_C9_recent_metrics (ms : List AgentMetric) (n : Nat) (h : 1 ≤ n) :
    getRecentMetrics ms n = (ms.reverse.take n).reverse ∧
    getRecentMetrics clearMetrics n = [] := by
  constructor
  · unfold getRecentMetrics
    rw [if_neg (by omega)]
    rw [← List.rtake_eq_reverse_take_reverse]
    rfl
  · simp [getRecentMetrics, clearMetrics]

/-- Witness for C9 (amended) at n = 1. -/
theorem claim_C9_witness :
    getRecentMetrics [metricEx] 1 = [metricEx] ∧ getRecentMetrics clearMetrics 1 = [] := by
  have h := claim_C9_recent_metrics [metricEx] 1 (by decide)
  simpa using h

/-! ### Claim C2: the 5-turn cap of the tool loop -/

/-- A reply whose first call is fetchMedicalRecords or updateMemory makes
execLoop resolve exactly one turn: the call name is recorded, the memory
update (if any) applied, and the loop continues on the next session reply
with one budget unit consumed. -/
theorem execLoop_resolves_step (session : Nat → ModelResponse) (k : Nat) (r : ModelResponse)
    (tu : List String) (b : Nat) (mem : UserContext) (now : Nat)
    (hb : b ≠ 0)
    (h1 : r.functionCalls ≠ [])
    (h2 : headCallName r = "fetchMedicalRecords" ∨ headCallName r = "updateMemory") :
    execLoop session k r tu b mem now =
      execLoop session (k + 1) (session k) (tu ++ [headCallName r]) (b - 1)
        (memAfterCall r mem now) now := by
  cases b with
  | zero => exact absurd rfl hb
  | succ b =>
    cases hr : r.functionCalls with
    | nil => exact absurd hr h1
    | cons c t =>
      have hname : headCallName r = c.name := by simp [headCallName, headCall, hr]
      rcases h2 with h2 | h2
      · rw [hname] at h2
        simp [execLoop, hr, h2, hname, memAfterCall, headCallName, headCall]
      · rw [hname] at h2
        simp [execLoop, hr, h2, hname, memAfterCall, headCallName, headCall]

/-- Claim C2: if every session reply carries a resolvable non-pause
function call (fetchMedicalRecords or updateMemory) at its head, the tool
loop resolves exactly 5 turns and terminates unpaused, returning the text
of the reply to the 5th function response (or "Task Completed." if that
text is empty), with every resolved tool name recorded in toolUsage after
the built-in tool signals of the first reply. -/
theorem claim_C2_tool_loop_cap (agent : AgentDomain) (instruction context language : String)
    (session : Nat → ModelResponse) (mem : UserContext) (now : Nat)
    (h : ∀ i : Nat, (session i).functionCalls ≠ [] ∧
      (headCallName (session i) = "fetchMedicalRecords" ∨
        headCallName (session i) = "updateMemory")) :
    (executeAgent agent instruction context language session mem now).1 =
      { text := finishText (session 5).text
      , isPaused := false
      , pauseReason := ""
      , toolUsage := builtinToolSignals (session 0) ++
          [headCallName (session 0), headCallName (session 1), headCallName (session 2),
           headCallName (session 3), headCallName (session 4)] } := by
  unfold executeAgent
  rw [execLoop_resolves_step session 1 (session 0) _ 5 mem now (by omega) (h 0).1 (h 0).2]
  norm_num
  rw [execLoop_resolves_step session 2 (session 1) _ 4 _ now (by omega) (h 1).1 (h 1).2]
  norm_num
  rw [execLoop_resolves_step session 3 (session 2) _ 3 _ now (by omega) (h 2).1 (h 2).2]
  norm_num
  rw [execLoop_resolves_step session 4 (session 3) _ 2 _ now (by omega) (h 3).1 (h 3).2]
  norm_num
  rw [execLoop_resolves_step session 5 (session 4) _ 1 _ now (by omega) (h 4).1 (h 4).2]
  simp [execLoop, List.append_assoc]

/-- Witness for C2: a session always replying with an updateMemory call. -/
theorem claim_C2_witness :
    (executeAgent AgentDomain.HEALTH "i" "c" "en" sessW defaultUserContext 0).1 =
      { text := "ok", isPaused := false, pauseReason := ""
      , toolUsage := ["updateMemory", "updateMemory", "updateMemory", "updateMemory",
                      "updateMemory"] } := by
  have h := claim_C2_tool_loop_cap AgentDomain.HEALTH "i" "c" "en" sessW defaultUserContext 0
    (fun i => ⟨by simp [sessW], Or.inr (by simp [sessW, headCallName, headCall])⟩)
  simpa [sessW, headCallName, headCall, builtinToolSignals, finishText] using h

/-! ### Event-trace lemmas for the dispatcher -/

/-- The compaction and planning phases emit no events other than
compaction and planning events. -/
theorem compactPlanEvents_filter (env : Env) (history : List HistTurn)
    (prompt sessionId memoryContext cs : String) (rs : Option PausedState) (p : RunEvent → Bool)
    (hc : ∀ t, p (RunEvent.compactEv t) = false)
    (hpl : ∀ c, p (RunEvent.planEv c) = false) :
    ((compactionPhase env history rs).2 ++
      (setupPhase env prompt sessionId memoryContext cs rs).2).filter p = [] := by
  unfold compactionPhase setupPhase
  cases rs with
  | some ps => simp
  | none =>
    by_cases h0 : 0 < history.length
    · by_cases h6 : 6 < history.length
      · simp [h0, h6, hc, hpl]
      · simp [h0, h6, hpl]
    · simp [h0, hpl]

/-- The sequential loop only appends executor events to the trace. -/
theorem seqOutcomeEvents_filter (exec : ExecFn) (plan : AgentPlan) (p : RunEvent → Bool)
    (hp : ∀ a ins c, p (RunEvent.execEv a ins c) = false) :
    ∀ (steps : List AgentStep) (i : Nat) (st : SeqState),
      (seqOutcomeEvents (runSeqSteps exec plan i steps st)).filter p = st.events.filter p := by
  intro steps
  induction steps with
  | nil => intro i st; simp [runSeqSteps, seqOutcomeEvents]
  | cons step rest ih =>
    intro i st
    cases hps : (exec step.agent step.instruction st.accumulatedContext).isPaused with
    | true => simp [runSeqSteps, hps, seqOutcomeEvents, List.filter_append, hp]
    | false =>
      simp only [runSeqSteps, hps, Bool.false_eq_true, if_false]
      rw [ih]
      simp [advanceSeq, List.filter_append, hp]

/-- Phase 2 only appends executor events to the trace. -/
theorem executionPhase_events_filter (env : Env) (setup : RunSetup)
    (resumeState : Option PausedState) (ev0 : List RunEvent) (p : RunEvent → Bool)
    (hp : ∀ a ins c, p (RunEvent.execEv a ins c) = false) :
    (execPhaseEvents (executionPhase env setup resumeState ev0)).filter p = ev0.filter p := by
  have hmapnil : ∀ (l : List AgentStep) (f : AgentStep → RunEvent),
      (∀ x, p (f x) = false) → (l.map f).filter p = [] := by
    intro l f hf
    induction l with
    | nil => rfl
    | cons x xs ih => simp [hf, ih]
  unfold executionPhase
  split
  · -- PARALLEL fan-out
    simp only [execPhaseEvents, List.filter_append]
    rw [hmapnil _ _ (by intro x; exact hp _ _ _)]
    simp
  · split
    · -- SEQUENTIAL
      have h := seqOutcomeEvents_filter env.exec setup.plan p hp
        (setup.plan.steps.drop setup.startStepIndex) setup.startStepIndex
        { accumulatedContext := setup.accumulatedContext
        , agentOutputs := setup.agentOutputs
        , toolUsageLog := []
        , events := ev0 }
      cases hseq : runSeqSteps env.exec setup.plan setup.startStepIndex
          (setup.plan.steps.drop setup.startStepIndex)
          { accumulatedContext := setup.accumulatedContext
          , agentOutputs := setup.agentOutputs
          , toolUsageLog := []
          , events := ev0 } with
      | paused ps reason agent st =>
        rw [hseq] at h
        simpa [execPhaseEvents, seqOutcomeEvents] using h
      | completed st =>
        rw [hseq] at h
        simpa [execPhaseEvents, seqOutcomeEvents] using h
    · split
      · -- LOOP
        split
        · simp [execPhaseEvents]
        · simp [execPhaseEvents, List.filter_append, hp]
      · split
        · -- DIRECT
          split
          · simp [execPhaseEvents]
          · simp [execPhaseEvents, List.filter_append, hp]
        · -- resumed, non-sequential
          simp [execPhaseEvents]

/-- Phases 3 and 4 only append synthesis and evaluation events. -/
theorem finishRun_events_filter (env : Env)
    (prompt contextSummary memoryContext language : String)
    (er : ExecPhaseResult) (setup : RunSetup) (p : RunEvent → Bool)
    (hps : ∀ si, p (RunEvent.synthEv si) = false)
    (hpe : ∀ q r, p (RunEvent.evalEv q r) = false) :
    (finishRun env prompt contextSummary memoryContext language er setup).2.filter p =
      (execPhaseEvents er).filter p := by
  unfold finishRun
  cases er with
  | paused result events => simp [execPhaseEvents]
  | faulted events => simp [execPhaseEvents]
  | completed outs tul events =>
    cases hsy : env.synthesize
        { prompt := prompt, synthesisContext := synthesisContextOf outs
        , contextSummary := contextSummary, memoryContext := memoryContext
        , language := language, toolUsageLog := tul } with
    | error e => simp [hsy, execPhaseEvents, List.filter_append, hps, hpe]
    | ok parsed => simp [hsy, execPhaseEvents, List.filter_append, hps, hpe]

/-- A resumed run whose restored plan is not SEQUENTIAL executes no
branch of Phase 2. -/
theorem executionPhase_resumed_nonseq (env : Env) (setup : RunSetup) (ps : PausedState)
    (ev0 : List RunEvent) (h : setup.plan.mode ≠ ExecutionMode.SEQUENTIAL) :
    executionPhase env setup (some ps) ev0 =
      ExecPhaseResult.completed setup.agentOutputs [] ev0 := by
  unfold executionPhase
  simp [h]

/-! ### Claims C3, C4, C6, C10 about the dispatcher -/

/-- Claim C4: if the planning call throws, the run proceeds with the
fallback DIRECT plan over the original request, and behaves exactly as a
run whose planner had returned that fallback plan — the planning failure
is never surfaced to the caller. -/
theorem claim_C4_planner_fallback (env : Env) (prompt : String) (history : List HistTurn)
    (apiKey sessionId memoryContext language : String)
    (hfail : env.planner
        (planningContextFor (compactionPhase env history none).1 prompt memoryContext) =
      Except.error ()) :
    (theSetup env prompt history sessionId memoryContext none).plan = fallbackPlan prompt ∧
    runWorkflow env prompt history apiKey sessionId memoryContext language none =
      runWorkflow { env with planner := fun _ => Except.ok (fallbackPlan prompt) }
        prompt history apiKey sessionId memoryContext language none := by
  constructor
  · simp [theSetup, setupPhase, hfail]
  · unfold runWorkflow
    by_cases hk : apiKey = ""
    · simp [hk]
    · rw [if_neg hk, if_neg hk]
      have hc : compactionPhase { env with planner := fun _ => Except.ok (fallbackPlan prompt) }
          history none = compactionPhase env history none := rfl
      rw [hc]
      have hs : setupPhase { env with planner := fun _ => Except.ok (fallbackPlan prompt) }
          prompt sessionId memoryContext (compactionPhase env history none).1 none =
          setupPhase env prompt sessionId memoryContext (compactionPhase env history none).1 none := by
        simp [setupPhase, hfail]
      rw [hs]
      rfl

/-- Witness for C4: envBaseW's planner always throws. -/
theorem claim_C4_witness :
    (theSetup envBaseW "p" [] "s" "m" none).plan = fallbackPlan "p" ∧
    runWorkflow envBaseW "p" [] "k" "s" "m" "en" none =
      runWorkflow { envBaseW with planner := fun _ => Except.ok (fallbackPlan "p") }
        "p" [] "k" "s" "m" "en" none := by
  exact claim_C4_planner_fallback envBaseW "p" [] "k" "s" "m" "en" rfl

/-- Claim C3: resuming a checkpoint whose plan mode is PARALLEL, LOOP or
DIRECT runs no execution branch — no Agent Executor is invoked for any
step — and the run proceeds directly to synthesis over the agent outputs
persisted in the checkpoint (with the empty tool-usage log and the empty
context summary of a resumed run). -/
theorem claim_C3_resume_skips_execution (env : Env) (prompt : String) (history : List HistTurn)
    (apiKey sessionId memoryContext language : String) (ps : PausedState)
    (hkey : apiKey ≠ "")
    (hmode : ps.plan.mode = ExecutionMode.PARALLEL ∨ ps.plan.mode = ExecutionMode.LOOP ∨
      ps.plan.mode = ExecutionMode.DIRECT) :
    (runWorkflow env prompt history apiKey sessionId memoryContext language
        (some ps)).2.filter isExecEvent = [] ∧
    (runWorkflow env prompt history apiKey sessionId memoryContext language
        (some ps)).2.filter isSynthEvent =
      [RunEvent.synthEv
        { prompt := prompt, synthesisContext := synthesisContextOf ps.agentOutputs
        , contextSummary := "", memoryContext := memoryContext, language := language
        , toolUsageLog := [] }] := by
  have hmode' : ps.plan.mode ≠ ExecutionMode.SEQUENTIAL := by
    rcases hmode with h | h | h <;> simp [h]
  unfold runWorkflow
  rw [if_neg hkey]
  simp only [compactionPhase, setupPhase]
  rw [executionPhase_resumed_nonseq _ _ _ _ hmode']
  unfold finishRun
  cases hsy : env.synthesize
      { prompt := prompt, synthesisContext := synthesisContextOf ps.agentOutputs
      , contextSummary := "", memoryContext := memoryContext, language := language
      , toolUsageLog := [] } with
  | error e => simp [hsy, isExecEvent, isSynthEvent]
  | ok parsed => simp [hsy, isExecEvent, isSynthEvent]

/-- Witness for C3: resuming psParW (a PARALLEL checkpoint). -/
theorem claim_C3_witness :
    (runWorkflow envBaseW "p" [] "k" "s" "m" "en" (some psParW)).2.filter isExecEvent = [] ∧
    (runWorkflow envBaseW "p" [] "k" "s" "m" "en" (some psParW)).2.filter isSynthEvent =
      [RunEvent.synthEv
        { prompt := "p", synthesisContext := synthesisContextOf psParW.agentOutputs
        , contextSummary := "", memoryContext := "m", language := "en"
        , toolUsageLog := [] }] := by
  exact claim_C3_resume_skips_execution envBaseW "p" [] "k" "s" "m" "en" psParW
    (by decide) (Or.inl (by decide))

/-- Claim C6: on a fresh run with non-empty history, more than 6 turns
produce the compacted context by one summarization call over the full
verbatim transcript, and 6 or fewer turns produce the verbatim transcript
as "ROLE: text" lines with no summarization call; and a resumed run never
invokes the Compactor (its trace has no compaction event). -/
theorem claim_C6_compaction_threshold (env : Env) (history : List HistTurn)
    (prompt apiKey sessionId memoryContext language : String) (ps : PausedState) :
    (history ≠ [] → 6 < history.length →
      compactionPhase env history none =
        (env.summarize (summarizationPrompt (formatHistory history)),
          [RunEvent.compactEv (formatHistory history)])) ∧
    (history ≠ [] → history.length ≤ 6 →
      compactionPhase env history none = (formatHistory history, [])) ∧
    (runWorkflow env prompt history apiKey sessionId memoryContext language
        (some ps)).2.filter isCompactEvent = [] := by
  refine ⟨?_, ?_, ?_⟩
  · intro hne h6
    have h0 : 0 < history.length := List.length_pos.mpr hne
    simp [compactionPhase, h0, h6]
  · intro hne h6
    have h0 : 0 < history.length := List.length_pos.mpr hne
    have h6' : ¬ 6 < history.length := by omega
    simp [compactionPhase, h0, h6']
  · unfold runWorkflow
    by_cases hk : apiKey = ""
    · simp [hk]
    · rw [if_neg hk]
      rw [finishRun_events_filter env prompt _ memoryContext language _ _ isCompactEvent
        (by intro si; rfl) (by intro q r; rfl)]
      rw [executionPhase_events_filter env _ _ _ isCompactEvent (by intro a ins c; rfl)]
      simp [compactionPhase, setupPhase]

/-- Witness for C6: 7 turns summarize, 6 turns stay verbatim. -/
theorem claim_C6_witness :
    compactionPhase envBaseW hist7W none =
      (envBaseW.summarize (summarizationPrompt (formatHistory hist7W)),
        [RunEvent.compactEv (formatHistory hist7W)]) ∧
    compactionPhase envBaseW hist6W none = (formatHistory hist6W, []) := by
  exact ⟨(claim_C6_compaction_threshold envBaseW hist7W "p" "k" "s" "m" "en" psParW).1
      (by decide) (by decide),
    (claim_C6_compaction_threshold envBaseW hist6W "p" "k" "s" "m" "en" psParW).2.1
      (by decide) (by decide)⟩

/-- The compaction phase emits at most a compaction event. -/
theorem compactionPhase_events_filter (env : Env) (history : List HistTurn)
    (rs : Option PausedState) (p : RunEvent → Bool)
    (hc : ∀ t, p (RunEvent.compactEv t) = false) :
    ((compactionPhase env history rs).2).filter p = [] := by
  unfold compactionPhase
  cases rs with
  | some ps => simp
  | none =>
    by_cases h0 : 0 < history.length
    · by_cases h6 : 6 < history.length
      · simp [h0, h6, hc]
      · simp [h0, h6]
    · simp [h0]

/-- A fresh LOOP-mode Phase 2 completes with the empty tool-usage log and
appends only executor events. -/
theorem executionPhase_fresh_loop (env : Env) (setup : RunSetup) (ev0 : List RunEvent)
    (s0 : AgentStep) (rest : List AgentStep)
    (hmode : setup.plan.mode = ExecutionMode.LOOP)
    (hsteps : setup.plan.steps = s0 :: rest) :
    ∃ outs evs, executionPhase env setup none ev0 = ExecPhaseResult.completed outs [] evs ∧
      evs.filter isSynthEvent = ev0.filter isSynthEvent := by
  refine ⟨upsert setup.agentOutputs s0.agent
      (env.exec s0.agent
        ("Refine based on: " ++
          (env.exec AgentDomain.ORCHESTRATOR
            ("Critique: " ++ (env.exec s0.agent s0.instruction setup.accumulatedContext).text)
            "").text)
        ("Draft: " ++ (env.exec s0.agent s0.instruction setup.accumulatedContext).text)).text,
    ev0 ++
      [RunEvent.execEv s0.agent s0.instruction setup.accumulatedContext,
       RunEvent.execEv AgentDomain.ORCHESTRATOR
         ("Critique: " ++ (env.exec s0.agent s0.instruction setup.accumulatedContext).text) "",
       RunEvent.execEv s0.agent
         ("Refine based on: " ++
           (env.exec AgentDomain.ORCHESTRATOR
             ("Critique: " ++ (env.exec s0.agent s0.instruction setup.accumulatedContext).text)
             "").text)
         ("Draft: " ++ (env.exec s0.agent s0.instruction setup.accumulatedContext).text)],
    ?_, ?_⟩
  · unfold executionPhase
    simp [hmode, hsteps]
  · simp [List.filter_append, isSynthEvent]

/-- Claim C10: on a fresh LOOP-mode run, the tool-usage lists of the three
refinement calls are discarded: exactly one synthesis call occurs and
every synthesis input appearing in the trace carries the empty tool-usage
log, whatever tools the loop agents invoked. -/
theorem claim_C10_loop_discards_tool_usage (env : Env) (prompt : String)
    (history : List HistTurn) (apiKey sessionId memoryContext language : String)
    (p0 : AgentPlan) (s0 : AgentStep) (rest : List AgentStep)
    (hkey : apiKey ≠ "")
    (hplan : env.planner
        (planningContextFor (compactionPhase env history none).1 prompt memoryContext) =
      Except.ok p0)
    (hmode : p0.mode = ExecutionMode.LOOP)
    (hsteps : p0.steps = s0 :: rest) :
    ((runWorkflow env prompt history apiKey sessionId memoryContext language
        none).2.filter isSynthEvent).length = 1 ∧
    ∀ si, RunEvent.synthEv si ∈
        (runWorkflow env prompt history apiKey sessionId memoryContext language none).2 →
      si.toolUsageLog = [] := by
  unfold runWorkflow
  rw [if_neg hkey]
  have hS : setupPhase env prompt sessionId memoryContext
      (compactionPhase env history none).1 none =
      ({ plan := p0
       , accumulatedContext :=
           "User Query: " ++ prompt ++ "\nSession ID: " ++ sessionId ++
             "\nHistory Context: " ++ (compactionPhase env history none).1 ++ "\n" ++ memoryContext
       , agentOutputs := [], startStepIndex := 0 },
       [RunEvent.planEv (planningContextFor (compactionPhase env history none).1
          prompt memoryContext)]) := by
    simp [setupPhase, hplan]
  rw [hS]
  obtain ⟨outs, evs, hex, hevs⟩ := executionPhase_fresh_loop env
    { plan := p0
    , accumulatedContext :=
        "User Query: " ++ prompt ++ "\nSession ID: " ++ sessionId ++
          "\nHistory Context: " ++ (compactionPhase env history none).1 ++ "\n" ++ memoryContext
    , agentOutputs := [], startStepIndex := 0 }
    ((compactionPhase env history none).2 ++
      [RunEvent.planEv (planningContextFor (compactionPhase env history none).1
        prompt memoryContext)])
    s0 rest hmode hsteps
  rw [hex]
  have hevs0 : evs.filter isSynthEvent = [] := by
    rw [hevs, List.filter_append]
    rw [compactionPhase_events_filter env history none isSynthEvent (by intro t; rfl)]
    rfl
  unfold finishRun
  cases hsy : env.synthesize
      { prompt := prompt, synthesisContext := synthesisContextOf outs
      , contextSummary := (compactionPhase env history none).1, memoryContext := memoryContext
      , language := language, toolUsageLog := [] } with
  | error e =>
    simp only [hsy]
    constructor
    · simp [List.filter_append, hevs0, isSynthEvent]
    · intro si hsi
      rcases List.mem_append.mp hsi with h | h
      · exact absurd (List.mem_filter.mpr ⟨h, rfl⟩ : RunEvent.synthEv si ∈ evs.filter isSynthEvent)
          (by rw [hevs0]; exact List.not_mem_nil _)
      · simp at h
        subst h
        rfl
  | ok parsed =>
    simp only [hsy]
    constructor
    · simp [List.filter_append, hevs0, isSynthEvent]
    · intro si hsi
      rcases List.mem_append.mp hsi with h | h
      · exact absurd (List.mem_filter.mpr ⟨h, rfl⟩ : RunEvent.synthEv si ∈ evs.filter isSynthEvent)
          (by rw [hevs0]; exact List.not_mem_nil _)
      · simp at h
        subst h
        rfl

/-- Witness for C10: a fresh run of envLoopW. -/
theorem claim_C10_witness :
    ((runWorkflow envLoopW "p" [] "k" "s" "m" "en" none).2.filter isSynthEvent).length = 1 :=
  (claim_C10_loop_discards_tool_usage envLoopW "p" [] "k" "s" "m" "en" planLoopW
    { agent := AgentDomain.EDUCATION, instruction := "draft" } [] (by decide) rfl rfl rfl).1

/-! ### Claim C1: pausing a SEQUENTIAL run -/

/-- Completed sequential steps append only executor events. -/
theorem stateAfter_events_filter (exec : ExecFn) (p : RunEvent → Bool)
    (hp : ∀ a ins c, p (RunEvent.execEv a ins c) = false) :
    ∀ (pre : List AgentStep) (st : SeqState),
      ((stateAfter exec st pre).events).filter p = st.events.filter p := by
  intro pre
  induction pre with
  | nil => intro st; rfl
  | cons s pre ih =>
    intro st
    rw [stateAfter, ih]
    simp [advanceSeq, List.filter_append, hp]

/-- Completed sequential steps append exactly one executor event each. -/
theorem stateAfter_exec_count (exec : ExecFn) :
    ∀ (pre : List AgentStep) (st : SeqState),
      (((stateAfter exec st pre).events).filter isExecEvent).length =
        ((st.events.filter isExecEvent)).length + pre.length := by
  intro pre
  induction pre with
  | nil => intro st; rfl
  | cons s pre ih =>
    intro st
    rw [stateAfter, ih]
    simp [advanceSeq, List.filter_append, isExecEvent]
    omega

/-- If the steps before stepI complete without pausing and the executor
invoked for stepI signals pause at the accumulated state, the sequential
loop returns the paused outcome exactly as built at that step: plan
unchanged, stepIndex one past stepI, the running context annotated with
the paused step's partial text, and the outputs accumulated so far. -/
theorem runSeqSteps_pauses_at (exec : ExecFn) (plan : AgentPlan) :
    ∀ (pre : List AgentStep) (stepI : AgentStep) (post : List AgentStep) (i : Nat) (st : SeqState),
      noPauseAlong exec st pre →
      (exec stepI.agent stepI.instruction (stateAfter exec st pre).accumulatedContext).isPaused = true →
      runSeqSteps exec plan i (pre ++ stepI :: post) st =
        SeqOutcome.paused
          { plan := plan
          , stepIndex := i + pre.length + 1
          , accumulatedContext :=
              (stateAfter exec st pre).accumulatedContext ++ "\n[Paused Step " ++
                domainName stepI.agent ++ "]: " ++
                (exec stepI.agent stepI.instruction (stateAfter exec st pre).accumulatedContext).text
          , agentOutputs := (stateAfter exec st pre).agentOutputs }
          (exec stepI.agent stepI.instruction (stateAfter exec st pre).accumulatedContext).pauseReason
          stepI.agent
          { accumulatedContext := (stateAfter exec st pre).accumulatedContext
          , agentOutputs := (stateAfter exec st pre).agentOutputs
          , toolUsageLog := (stateAfter exec st pre).toolUsageLog ++
              (exec stepI.agent stepI.instruction (stateAfter exec st pre).accumulatedContext).toolUsage
          , events := (stateAfter exec st pre).events ++
              [RunEvent.execEv stepI.agent stepI.instruction
                (stateAfter exec st pre).accumulatedContext] } := by
  intro pre
  induction pre with
  | nil =>
    intro stepI post i st _ hpause
    rw [List.nil_append]
    simp only [runSeqSteps]
    rw [if_pos (show (exec stepI.agent stepI.instruction st.accumulatedContext).isPaused = true
      from hpause)]
    simp [stateAfter]
  | cons s pre ih =>
    intro stepI post i st hnp hpause
    have harith : i + (s :: pre).length + 1 = (i + 1) + pre.length + 1 := by
      simp [List.length_cons]
      omega
    rw [harith, List.cons_append]
    simp only [runSeqSteps, hnp.1, Bool.false_eq_true, if_false]
    have hpause' : (exec stepI.agent stepI.instruction
        (stateAfter exec (advanceSeq exec st s) pre).accumulatedContext).isPaused = true := by
      simpa [stateAfter] using hpause
    have h := ih stepI post (i + 1) (advanceSeq exec st s) hnp.2 hpause'
    rw [h]
    simp [stateAfter]

/-- The events before Phase 2 are only compaction and planning events. -/
theorem preRunEvents_filter (env : Env) (prompt : String) (history : List HistTurn)
    (sessionId memoryContext : String) (rs : Option PausedState) (p : RunEvent → Bool)
    (hc : ∀ t, p (RunEvent.compactEv t) = false)
    (hpl : ∀ c, p (RunEvent.planEv c) = false) :
    (preRunEvents env prompt history sessionId memoryContext rs).filter p = [] := by
  unfold preRunEvents
  exact compactPlanEvents_filter env history prompt sessionId memoryContext _ rs p hc hpl

/-- The events of the sequential start state. -/
theorem seqStartState_events (env : Env) (prompt : String) (history : List HistTurn)
    (sessionId memoryContext : String) (rs : Option PausedState) :
    (seqStartState env prompt history sessionId memoryContext rs).events =
      preRunEvents env prompt history sessionId memoryContext rs := rfl

/-- The sequential start state written out field by field. -/
theorem seqStartState_eq (env : Env) (prompt : String) (history : List HistTurn)
    (sessionId memoryContext : String) (rs : Option PausedState) :
    ({ accumulatedContext :=
         (theSetup env prompt history sessionId memoryContext rs).accumulatedContext
     , agentOutputs := (theSetup env prompt history sessionId memoryContext rs).agentOutputs
     , toolUsageLog := []
     , events := preRunEvents env prompt history sessionId memoryContext rs } : SeqState) =
      seqStartState env prompt history sessionId memoryContext rs := rfl

/-- When the plan mode is SEQUENTIAL, Phase 2 is the sequential loop. -/
theorem executionPhase_seq (env : Env) (setup : RunSetup) (resumeState : Option PausedState)
    (ev0 : List RunEvent) (hmode : setup.plan.mode = ExecutionMode.SEQUENTIAL) :
    executionPhase env setup resumeState ev0 =
      match runSeqSteps env.exec setup.plan setup.startStepIndex
          (setup.plan.steps.drop setup.startStepIndex)
          { accumulatedContext := setup.accumulatedContext
          , agentOutputs := setup.agentOutputs
          , toolUsageLog := []
          , events := ev0 } with
      | SeqOutcome.paused ps reason agent st =>
        ExecPhaseResult.paused
          { response := "Workflow Paused: " ++ reason
          , sentiment := Sentiment.NEUTRAL
          , executionMode := ExecutionMode.PAUSED
          , activeAgents := [agent]
          , pausedState := some ps
          , reasoning := some reason
          , evaluation := none }
          st.events
      | SeqOutcome.completed st =>
        ExecPhaseResult.completed st.agentOutputs st.toolUsageLog st.events := by
  unfold executionPhase
  rw [if_neg (by simp [hmode]), if_pos hmode]

/-- Claim C1: during a SEQUENTIAL run (fresh or resumed), if the steps
before stepI complete without pausing and the Agent Executor invoked for
stepI signals pause, the dispatcher stops iterating immediately (exactly
pre.length + 1 executor calls appear in the trace), runWorkflow returns
with executionMode PAUSED and a pausedState carrying the plan unchanged,
stepIndex one past the paused step, and the running context with an
annotation of the paused step's partial text appended; on this path
neither the Synthesizer nor the Evaluator is invoked. -/
theorem claim_C1_sequential_pause (env : Env) (prompt : String) (history : List HistTurn)
    (apiKey sessionId memoryContext language : String) (resumeState : Option PausedState)
    (pre : List AgentStep) (stepI : AgentStep) (post : List AgentStep)
    (hkey : apiKey ≠ "")
    (hmode : (theSetup env prompt history sessionId memoryContext resumeState).plan.mode =
      ExecutionMode.SEQUENTIAL)
    (hsplit : (theSetup env prompt history sessionId memoryContext resumeState).plan.steps.drop
        (theSetup env prompt history sessionId memoryContext resumeState).startStepIndex =
      pre ++ stepI :: post)
    (hnp : noPauseAlong env.exec
      (seqStartState env prompt history sessionId memoryContext resumeState) pre)
    (hpause : (env.exec stepI.agent stepI.instruction
        (stateAfter env.exec (seqStartState env prompt history sessionId memoryContext resumeState)
          pre).accumulatedContext).isPaused = true) :
    (runWorkflow env prompt history apiKey sessionId memoryContext language resumeState).1 =
      Except.ok
        { response := "Workflow Paused: " ++
            (env.exec stepI.agent stepI.instruction
              (stateAfter env.exec
                (seqStartState env prompt history sessionId memoryContext resumeState)
                pre).accumulatedContext).pauseReason
        , sentiment := Sentiment.NEUTRAL
        , executionMode := ExecutionMode.PAUSED
        , activeAgents := [stepI.agent]
        , pausedState := some
            { plan := (theSetup env prompt history sessionId memoryContext resumeState).plan
            , stepIndex :=
                (theSetup env prompt history sessionId memoryContext resumeState).startStepIndex +
                  pre.length + 1
            , accumulatedContext :=
                (stateAfter env.exec
                  (seqStartState env prompt history sessionId memoryContext resumeState)
                  pre).accumulatedContext ++ "\n[Paused Step " ++ domainName stepI.agent ++
                  "]: " ++
                  (env.exec stepI.agent stepI.instruction
                    (stateAfter env.exec
                      (seqStartState env prompt history sessionId memoryContext resumeState)
                      pre).accumulatedContext).text
            , agentOutputs :=
                (stateAfter env.exec
                  (seqStartState env prompt history sessionId memoryContext resumeState)
                  pre).agentOutputs }
        , reasoning := some
            (env.exec stepI.agent stepI.instruction
              (stateAfter env.exec
                (seqStartState env prompt history sessionId memoryContext resumeState)
                pre).accumulatedContext).pauseReason
        , evaluation := none } ∧
    (runWorkflow env prompt history apiKey sessionId memoryContext language
      resumeState).2.filter isSynthOrEvalEvent = [] ∧
    ((runWorkflow env prompt history apiKey sessionId memoryContext language
      resumeState).2.filter isExecEvent).length = pre.length + 1 := by
  have hseq := runSeqSteps_pauses_at env.exec
    (theSetup env prompt history sessionId memoryContext resumeState).plan pre stepI post
    (theSetup env prompt history sessionId memoryContext resumeState).startStepIndex
    (seqStartState env prompt history sessionId memoryContext resumeState) hnp hpause
  have hrun : runWorkflow env prompt history apiKey sessionId memoryContext language resumeState =
      (Except.ok
        { response := "Workflow Paused: " ++
            (env.exec stepI.agent stepI.instruction
              (stateAfter env.exec
                (seqStartState env prompt history sessionId memoryContext resumeState)
                pre).accumulatedContext).pauseReason
        , sentiment := Sentiment.NEUTRAL
        , executionMode := ExecutionMode.PAUSED
        , activeAgents := [stepI.agent]
        , pausedState := some
            { plan := (theSetup env prompt history sessionId memoryContext resumeState).plan
            , stepIndex :=
                (theSetup env prompt history sessionId memoryContext resumeState).startStepIndex +
                  pre.length + 1
            , accumulatedContext :=
                (stateAfter env.exec
                  (seqStartState env prompt history sessionId memoryContext resumeState)
                  pre).accumulatedContext ++ "\n[Paused Step " ++ domainName stepI.agent ++
                  "]: " ++
                  (env.exec stepI.agent stepI.instruction
                    (stateAfter env.exec
                      (seqStartState env prompt history sessionId memoryContext resumeState)
                      pre).accumulatedContext).text
            , agentOutputs :=
                (stateAfter env.exec
                  (seqStartState env prompt history sessionId memoryContext resumeState)
                  pre).agentOutputs }
        , reasoning := some
            (env.exec stepI.agent stepI.instruction
              (stateAfter env.exec
                (seqStartState env prompt history sessionId memoryContext resumeState)
                pre).accumulatedContext).pauseReason
        , evaluation := none },
       (stateAfter env.exec (seqStartState env prompt history sessionId memoryContext resumeState)
         pre).events ++
         [RunEvent.execEv stepI.agent stepI.instruction
           (stateAfter env.exec
             (seqStartState env prompt history sessionId memoryContext resumeState)
             pre).accumulatedContext]) := by
    unfold runWorkflow
    rw [if_neg hkey]
    rw [show (compactionPhase env history resumeState).2 ++
        (setupPhase env prompt sessionId memoryContext
          (compactionPhase env history resumeState).1 resumeState).2 =
      preRunEvents env prompt history sessionId memoryContext resumeState from rfl]
    rw [show (setupPhase env prompt sessionId memoryContext
        (compactionPhase env history resumeState).1 resumeState).1 =
      theSetup env prompt history sessionId memoryContext resumeState from rfl]
    rw [executionPhase_seq env (theSetup env prompt history sessionId memoryContext resumeState)
      resumeState (preRunEvents env prompt history sessionId memoryContext resumeState) hmode]
    rw [hsplit]
    rw [seqStartState_eq env prompt history sessionId memoryContext resumeState]
    rw [hseq]
    rfl
  refine ⟨?_, ?_, ?_⟩
  · rw [hrun]
  · rw [hrun]
    simp only [List.filter_append]
    rw [stateAfter_events_filter env.exec isSynthOrEvalEvent (by intro a ins c; rfl) pre
      (seqStartState env prompt history sessionId memoryContext resumeState)]
    rw [seqStartState_events]
    rw [preRunEvents_filter env prompt history sessionId memoryContext resumeState
      isSynthOrEvalEvent (by intro t; rfl) (by intro c; rfl)]
    rfl
  · rw [hrun]
    simp only [List.filter_append, List.length_append]
    rw [stateAfter_exec_count env.exec pre
      (seqStartState env prompt history sessionId memoryContext resumeState)]
    rw [seqStartState_events]
    rw [preRunEvents_filter env prompt history sessionId memoryContext resumeState
      isExecEvent (by intro t; rfl) (by intro c; rfl)]
    simp [isExecEvent]

/-- Witness for C1: envPauseW pauses at the first step of its
single-step SEQUENTIAL plan. -/
theorem claim_C1_witness :
    (runWorkflow envPauseW "p" [] "k" "s" "m" "en" none).1 = Except.ok pausedResultW ∧
    (runWorkflow envPauseW "p" [] "k" "s" "m" "en" none).2.filter isSynthOrEvalEvent = [] ∧
    ((runWorkflow envPauseW "p" [] "k" "s" "m" "en" none).2.filter isExecEvent).length = 1 := by
  have h := claim_C1_sequential_pause envPauseW "p" [] "k" "s" "m" "en" none
    [] { agent := AgentDomain.HEALTH, instruction := "do" } []
    (by decide) rfl rfl trivial rfl
  refine ⟨?_, h.2.1, ?_⟩
  · rw [h.1]
    rfl
  · exact h.2.2
